import Mathlib

/-!
Verification of the kosli terraform provider's reconciliation layer.

This file gives a shallow embedding, in Lean, of the core logic of the
kosli-dev/terraform-provider-kosli repository:

* a model of JSON values and of the behaviour of Go's encoding/json package
  (parsing request/response bodies and unmarshalling them into the client
  structs of pkg/client),
* the API client layer of pkg/client (errors.go, client.go, environments.go,
  custom_attestation_types.go),
* the Create/Read/Update/Delete handlers of internal/provider
  (resource_environment.go, resource_logical_environment.go, provider.go,
  data_source_environment.go), modelled as pure functions from the
  terraform-supplied data and the remote HTTP responses to the list of API
  calls issued and the handler outcome,
* the semantic JSON-schema comparator used through jsontypes.NormalizedType
  (an external library, not part of the repository sources), modelled from
  the specification.

Conventions: Go struct fields are modelled as structure fields in
lowerCamelCase; Go nil pointers / nil slices produced by absent or null JSON
fields are modelled with Option; Go float64 JSON numbers are modelled as
rational numbers (no arithmetic is ever performed on them by the code under
study, they are only stored and copied); terraform null values are modelled
as Option.none.
-/

namespace Kosli

set_option maxRecDepth 100000

/-! ## JSON value model -/

/-- A JSON value.  Objects are association lists in first-occurrence order
with unique keys (the parser collapses duplicate keys, last value wins,
mirroring Go's encoding/json).  Numbers are modelled by their exact rational
value. -/
inductive Json where
  | null : Json
  | bool (b : Bool) : Json
  | num (q : Rat) : Json
  | str (s : String) : Json
  | arr (elems : List Json) : Json
  | obj (fields : List (String × Json)) : Json
deriving Repr

/-- The character with code 123 (left curly brace). -/
def lbrace : Char := Char.ofNat 123

/-- The character with code 125 (right curly brace). -/
def rbrace : Char := Char.ofNat 125

/-- Insert a key/value pair into an association list: if the key is present
its value is replaced in place (Go's last-duplicate-wins), otherwise the
pair is appended, preserving first-occurrence order. -/
def insertField (k : String) (v : Json) : List (String × Json) → List (String × Json)
  | [] => [(k, v)]
  | (k2, v2) :: rest =>
      if k == k2 then (k2, v) :: rest else (k2, v2) :: insertField k v rest

/-- JSON insignificant whitespace. -/
def isJsonWs (c : Char) : Bool :=
  c == ' ' || c == '\t' || c == '\n' || c == Char.ofNat 13

/-- Drop leading JSON whitespace. -/
def skipWs : List Char → List Char
  | [] => []
  | c :: rest => if isJsonWs c then skipWs rest else c :: rest

/-- Value of one hexadecimal digit. -/
def hexVal (c : Char) : Option Nat :=
  if c.isDigit then some (c.toNat - 48)
  else if 'a' ≤ c ∧ c ≤ 'f' then some (c.toNat - 87)
  else if 'A' ≤ c ∧ c ≤ 'F' then some (c.toNat - 55)
  else none

/-- Parse exactly four hexadecimal digits. -/
def parseHex4 : List Char → Option (Nat × List Char)
  | a :: b :: c :: d :: rest =>
      match hexVal a, hexVal b, hexVal c, hexVal d with
      | some ha, some hb, some hc, some hd =>
          some (ha * 4096 + hb * 256 + hc * 16 + hd, rest)
      | _, _, _, _ => none
  | _ => none

/-- The Unicode replacement character U+FFFD, used by Go for invalid
surrogate escapes. -/
def replacement : Char := Char.ofNat 0xFFFD

/-- Parse the body of a JSON string literal (after the opening quote),
accumulating decoded characters in reverse.  Mirrors Go's encoding/json:
standard escapes, \uXXXX escapes with surrogate-pair combination, lone or
invalid surrogates replaced by U+FFFD, raw control characters rejected. -/
def parseStringBody : Nat → List Char → List Char → Option (String × List Char)
  | 0, _, _ => none
  | fuel + 1, cs, acc =>
      match cs with
      | [] => none
      | c :: rest =>
          if c == '"' then some (String.mk acc.reverse, rest)
          else if c == '\\' then
            match rest with
            | [] => none
            | e :: rest2 =>
                if e == '"' then parseStringBody fuel rest2 ('"' :: acc)
                else if e == '\\' then parseStringBody fuel rest2 ('\\' :: acc)
                else if e == '/' then parseStringBody fuel rest2 ('/' :: acc)
                else if e == 'b' then parseStringBody fuel rest2 (Char.ofNat 8 :: acc)
                else if e == 'f' then parseStringBody fuel rest2 (Char.ofNat 12 :: acc)
                else if e == 'n' then parseStringBody fuel rest2 ('\n' :: acc)
                else if e == 'r' then parseStringBody fuel rest2 (Char.ofNat 13 :: acc)
                else if e == 't' then parseStringBody fuel rest2 ('\t' :: acc)
                else if e == 'u' then
                  match parseHex4 rest2 with
                  | none => none
                  | some (n, rest3) =>
                      if 0xD800 ≤ n ∧ n ≤ 0xDBFF then
                        match rest3 with
                        | '\\' :: 'u' :: rest4 =>
                            (match parseHex4 rest4 with
                             | some (m, rest5) =>
                                 if 0xDC00 ≤ m ∧ m ≤ 0xDFFF then
                                   parseStringBody fuel rest5
                                     (Char.ofNat (0x10000 + (n - 0xD800) * 0x400 + (m - 0xDC00)) :: acc)
                                 else parseStringBody fuel rest3 (replacement :: acc)
                             | none => parseStringBody fuel rest3 (replacement :: acc))
                        | _ => parseStringBody fuel rest3 (replacement :: acc)
                      else if 0xDC00 ≤ n ∧ n ≤ 0xDFFF then
                        parseStringBody fuel rest3 (replacement :: acc)
                      else
                        parseStringBody fuel rest3 (Char.ofNat n :: acc)
                else none
          else if c.toNat < 32 then none
          else parseStringBody fuel rest (c :: acc)

/-- Split leading decimal digits. -/
def takeDigits (cs : List Char) : List Char × List Char :=
  (cs.takeWhile (fun c => c.isDigit), cs.dropWhile (fun c => c.isDigit))

/-- Numeric value of a digit list. -/
def digitsToNat (ds : List Char) : Nat :=
  ds.foldl (fun a c => a * 10 + (c.toNat - 48)) 0

/-- m * 10 ^ e as an exact rational. -/
def ratTimesPow10 (m : Int) (e : Int) : Rat :=
  if 0 ≤ e then ((m * 10 ^ e.toNat : Int) : Rat)
  else mkRat m (10 ^ (-e).toNat)

/-- The rational value of a JSON number given its sign, integer digits,
fraction digits and decimal exponent. -/
def mkNumber (neg : Bool) (intDs fracDs : List Char) (e : Int) : Rat :=
  let m : Nat := digitsToNat (intDs ++ fracDs)
  let mi : Int := if neg then -(m : Int) else (m : Int)
  ratTimesPow10 mi (e - (fracDs.length : Int))

/-- Parse the optional exponent part of a JSON number and build the value. -/
def parseExpPart (neg : Bool) (intDs fracDs : List Char) (cs : List Char) :
    Option (Json × List Char) :=
  match cs with
  | e :: r =>
      if e == 'e' || e == 'E' then
        let signAndRest : Int × List Char :=
          match r with
          | '+' :: rr => (1, rr)
          | '-' :: rr => (-1, rr)
          | _ => (1, r)
        let (expDs, r3) := takeDigits signAndRest.2
        if expDs.isEmpty then none
        else some (.num (mkNumber neg intDs fracDs (signAndRest.1 * (digitsToNat expDs : Int))), r3)
      else some (.num (mkNumber neg intDs fracDs 0), cs)
  | [] => some (.num (mkNumber neg intDs fracDs 0), [])

/-- Parse a JSON number per the RFC 7159 grammar (optional minus, no leading
zeros, optional fraction and exponent). -/
def parseNumber (cs : List Char) : Option (Json × List Char) :=
  let signAndRest : Bool × List Char :=
    match cs with
    | '-' :: r => (true, r)
    | _ => (false, cs)
  let neg := signAndRest.1
  let (intDs, cs2) := takeDigits signAndRest.2
  if intDs.isEmpty then none
  else if intDs.length > 1 && intDs.head? == some '0' then none
  else
    match cs2 with
    | '.' :: r =>
        let (fracDs, cs3) := takeDigits r
        if fracDs.isEmpty then none else parseExpPart neg intDs fracDs cs3
    | _ => parseExpPart neg intDs [] cs2

mutual

/-- Parse one JSON value.  Fuel-driven recursive descent; the top-level
entry point supplies ample fuel. -/
def parseValue : Nat → List Char → Option (Json × List Char)
  | 0, _ => none
  | fuel + 1, cs =>
      match skipWs cs with
      | [] => none
      | c :: rest =>
          if c == 'n' then
            match rest with
            | 'u' :: 'l' :: 'l' :: r => some (.null, r)
            | _ => none
          else if c == 't' then
            match rest with
            | 'r' :: 'u' :: 'e' :: r => some (.bool true, r)
            | _ => none
          else if c == 'f' then
            match rest with
            | 'a' :: 'l' :: 's' :: 'e' :: r => some (.bool false, r)
            | _ => none
          else if c == '"' then
            match parseStringBody (rest.length + 1) rest [] with
            | some (s, r) => some (.str s, r)
            | none => none
          else if c == '[' then
            match skipWs rest with
            | ']' :: r2 => some (.arr [], r2)
            | cs1 => parseArrayItems fuel cs1 []
          else if c == lbrace then
            match skipWs rest with
            | [] => none
            | c2 :: r2 =>
                if c2 == rbrace then some (.obj [], r2)
                else parseObjectItems fuel (c2 :: r2) []
          else parseNumber (c :: rest)

/-- Parse the comma-separated items of a non-empty JSON array. -/
def parseArrayItems : Nat → List Char → List Json → Option (Json × List Char)
  | 0, _, _ => none
  | fuel + 1, cs, acc =>
      match parseValue fuel cs with
      | none => none
      | some (v, r) =>
          match skipWs r with
          | ',' :: r2 => parseArrayItems fuel (skipWs r2) (v :: acc)
          | ']' :: r2 => some (.arr (v :: acc).reverse, r2)
          | _ => none

/-- Parse the members of a non-empty JSON object, collapsing duplicate keys
with last-value-wins as Go does. -/
def parseObjectItems : Nat → List Char → List (String × Json) → Option (Json × List Char)
  | 0, _, _ => none
  | fuel + 1, cs, acc =>
      match cs with
      | [] => none
      | c :: rest =>
          if c == '"' then
            match parseStringBody (rest.length + 1) rest [] with
            | none => none
            | some (k, r) =>
                match skipWs r with
                | ':' :: r2 =>
                    (match parseValue fuel (skipWs r2) with
                     | none => none
                     | some (v, r3) =>
                         let acc2 := insertField k v acc
                         match skipWs r3 with
                         | ',' :: r4 => parseObjectItems fuel (skipWs r4) acc2
                         | c4 :: r4 =>
                             if c4 == rbrace then some (.obj acc2, r4) else none
                         | [] => none)
                | _ => none
          else none

end

/-- Parse a complete JSON document: one value, with only whitespace allowed
after it.  Models a successful call of Go's json.Unmarshal producing a
generic value (failure of this function models an unmarshal error). -/
def Json.parse (s : String) : Option Json :=
  match parseValue (4 * s.length + 16) s.data with
  | some (j, rest) => if (skipWs rest).isEmpty then some j else none
  | none => none

/-! ## Structural JSON equality

Modelled from the spec: the semantic-equality comparison performed by
jsontypes.NormalizedType (an external library dependency, not part of this
repository's sources): compare value by value, object key sets and values
matching regardless of key order, arrays element by element in order,
numbers by numeric value. -/

mutual

/-- Structural equality of two JSON values: objects compare by key lookup
(key order insignificant), arrays element by element in order, numbers by
numeric value. -/
def structEq : Json → Json → Bool
  | .null, .null => true
  | .bool a, .bool b => a == b
  | .num a, .num b => a == b
  | .str a, .str b => a == b
  | .arr xs, .arr ys => structEqList xs ys
  | .obj fs, .obj gs => fs.length == gs.length && structEqFields fs gs
  | _, _ => false

/-- Element-by-element structural equality of two JSON arrays. -/
def structEqList : List Json → List Json → Bool
  | [], [] => true
  | x :: xs, y :: ys => structEq x y && structEqList xs ys
  | _, _ => false

/-- Every field of the first list is present in the second with a
structurally equal value. -/
def structEqFields : List (String × Json) → List (String × Json) → Bool
  | [], _ => true
  | (k, v) :: rest, gs =>
      (match List.lookup k gs with
       | some w => structEq v w
       | none => false) && structEqFields rest gs

end

mutual

/-- Well-formed JSON value: every object has pairwise distinct keys.  All
values produced by the parser are well-formed, because the parser collapses
duplicate keys. -/
def wfJson : Json → Bool
  | .null => true
  | .bool _ => true
  | .num _ => true
  | .str _ => true
  | .arr xs => wfJsonList xs
  | .obj fs => wfJsonFields fs

/-- All elements well-formed. -/
def wfJsonList : List Json → Bool
  | [] => true
  | x :: xs => wfJson x && wfJsonList xs

/-- Keys pairwise distinct and all values well-formed. -/
def wfJsonFields : List (String × Json) → Bool
  | [] => true
  | (k, v) :: rest =>
      (List.lookup k rest).isNone && wfJson v && wfJsonFields rest

end

/-- Modelled from the spec: the semantic JSON equality used for the schema
attribute (jsontypes.NormalizedType, an external library not in this
repository's sources).  Parse both strings as JSON; if either fails to
parse, fall back to exact string equality; otherwise compare the parsed
values structurally. -/
def jsonSemanticEqual (s1 s2 : String) : Bool :=
  match Json.parse s1, Json.parse s2 with
  | some j1, some j2 => structEq j1 j2
  | _, _ => s1 == s2

/-! ## Go struct unmarshalling

Models of Go's encoding/json unmarshal behaviour for the client structs of
pkg/client: a missing field leaves the zero value, a JSON null leaves the
zero value for value fields and yields nil for pointer/slice/map fields, a
type mismatch is an unmarshal error (modelled as Option.none), unknown
fields are ignored. -/

/-- Fetch a field of a JSON object by key. -/
def getField (fields : List (String × Json)) (k : String) : Option Json :=
  List.lookup k fields

/-- Unmarshal a string-typed struct field: absent or null keeps the zero
value "", a JSON string is taken verbatim, anything else is an error. -/
def decStringField (fields : List (String × Json)) (k : String) : Option String :=
  match getField fields k with
  | none => some ""
  | some .null => some ""
  | some (.str s) => some s
  | some _ => none

/-- Unmarshal a bool-typed struct field. -/
def decBoolField (fields : List (String × Json)) (k : String) : Option Bool :=
  match getField fields k with
  | none => some false
  | some .null => some false
  | some (.bool b) => some b
  | some _ => none

/-- Unmarshal a float64-typed struct field (values modelled as rationals). -/
def decNumField (fields : List (String × Json)) (k : String) : Option Rat :=
  match getField fields k with
  | none => some 0
  | some .null => some 0
  | some (.num q) => some q
  | some _ => none

/-- Unmarshal a *float64-typed struct field: absent or null gives a nil
pointer. -/
def decNullableNumField (fields : List (String × Json)) (k : String) :
    Option (Option Rat) :=
  match getField fields k with
  | none => some none
  | some .null => some none
  | some (.num q) => some (some q)
  | some _ => none

/-- Unmarshal an int-typed struct field: the JSON number must be integral. -/
def decIntField (fields : List (String × Json)) (k : String) : Option Int :=
  match getField fields k with
  | none => some 0
  | some .null => some 0
  | some (.num q) => if q.den = 1 then some q.num else none
  | some _ => none

/-- Unmarshal one element of a []string slice. -/
def decStringElem (j : Json) : Option String :=
  match j with
  | .null => some ""
  | .str s => some s
  | _ => none

/-- Unmarshal a []string-typed struct field: absent or null gives a nil
slice (modelled none). -/
def decStringListField (fields : List (String × Json)) (k : String) :
    Option (Option (List String)) :=
  match getField fields k with
  | none => some none
  | some .null => some none
  | some (.arr xs) => (xs.mapM decStringElem).map some
  | some _ => none

/-- Unmarshal a map[string]string-typed struct field. -/
def decStringMapField (fields : List (String × Json)) (k : String) :
    Option (Option (List (String × String))) :=
  match getField fields k with
  | none => some none
  | some .null => some none
  | some (.obj fs) =>
      (fs.mapM (fun (p : String × Json) =>
        match p.2 with
        | .null => some (p.1, "")
        | .str s => some (p.1, s)
        | _ => none)).map some
  | some _ => none

/-- Unmarshal an interface-typed (any) struct field: absent and null both
give nil, modelled as Json.null. -/
def decAnyField (fields : List (String × Json)) (k : String) : Json :=
  match getField fields k with
  | none => .null
  | some j => j

/-- Unmarshal a []any-typed struct field. -/
def decAnyListField (fields : List (String × Json)) (k : String) :
    Option (Option (List Json)) :=
  match getField fields k with
  | none => some none
  | some .null => some none
  | some (.arr xs) => some (some xs)
  | some _ => none

/-! ## pkg/client data model -/

/-- Environment represents a Kosli environment as returned by the API
(pkg/client/environments.go). -/
structure Environment where
  org : String
  name : String
  type : String
  description : String
  lastModifiedAt : Rat
  lastReportedAt : Option Rat
  state : Json
  includeScaling : Bool
  requireProvenance : Bool
  tags : Option (List (String × String))
  policies : Option (List Json)
  includedEnvironments : Option (List String)
deriving Repr

/-- Unmarshal an Environment from a JSON document, per the json tags of the
Go struct.  A JSON null document leaves the zero-valued struct; a
non-object document is an error. -/
def decodeEnvironment (j : Json) : Option Environment :=
  match j with
  | .null =>
      some { org := "", name := "", type := "", description := "",
             lastModifiedAt := 0, lastReportedAt := none, state := .null,
             includeScaling := false, requireProvenance := false,
             tags := none, policies := none, includedEnvironments := none }
  | .obj fields =>
      match decStringField fields "org", decStringField fields "name",
            decStringField fields "type", decStringField fields "description",
            decNumField fields "last_modified_at",
            decNullableNumField fields "last_reported_at",
            decBoolField fields "include_scaling",
            decBoolField fields "require_provenance",
            decStringMapField fields "tags", decAnyListField fields "policies",
            decStringListField fields "included_environments" with
      | some org, some name, some type, some description, some lastModifiedAt,
        some lastReportedAt, some includeScaling, some requireProvenance,
        some tags, some policies, some includedEnvironments =>
          some { org := org, name := name, type := type, description := description,
                 lastModifiedAt := lastModifiedAt, lastReportedAt := lastReportedAt,
                 state := decAnyField fields "state", includeScaling := includeScaling,
                 requireProvenance := requireProvenance, tags := tags,
                 policies := policies, includedEnvironments := includedEnvironments }
      | _, _, _, _, _, _, _, _, _, _, _ => none
  | _ => none

/-- CreateEnvironmentRequest is the user-facing request format for creating
or updating an environment (pkg/client/environments.go).  The policies
payload is opaque JSON. -/
structure CreateEnvironmentRequest where
  name : String
  type : String
  description : String
  includeScaling : Bool
  includedEnvironments : List String
  policies : List Json
deriving Repr

/-- Evaluator represents the API's evaluator structure
(pkg/client/custom_attestation_types.go). -/
structure Evaluator where
  contentType : String
  rules : List String
deriving Repr

/-- Version represents a version of a custom attestation type
(pkg/client/custom_attestation_types.go). -/
structure Version where
  version : Int
  timestamp : Rat
  typeSchema : String
  evaluator : Option Evaluator
  createdBy : String
deriving Repr

/-- CustomAttestationType contains both the API wire format (versions) and
the user-facing format (schema, jqRules)
(pkg/client/custom_attestation_types.go).  The schema and jqRules fields
carry the json:"-" tag in Go, so unmarshalling never touches them and they
keep their zero values until fromAPIFormat fills them in. -/
structure CustomAttestationType where
  name : String
  description : String
  schema : String
  jqRules : List String
  versions : List Version
  archived : Bool
  org : String
deriving Repr

/-- Unmarshal an Evaluator from JSON.  A nil rules slice and an empty one
are identified (Go code only ever ranges over it). -/
def decodeEvaluator (j : Json) : Option Evaluator :=
  match j with
  | .null => some { contentType := "", rules := [] }
  | .obj fields =>
      match decStringField fields "content_type",
            decStringListField fields "rules" with
      | some contentType, some rules =>
          some { contentType := contentType, rules := rules.getD [] }
      | _, _ => none
  | _ => none

/-- Unmarshal a *Evaluator-typed struct field: absent or null gives nil. -/
def decEvaluatorField (fields : List (String × Json)) (k : String) :
    Option (Option Evaluator) :=
  match getField fields k with
  | none => some none
  | some .null => some none
  | some ev => (decodeEvaluator ev).map some

/-- Unmarshal a Version from JSON. -/
def decodeVersion (j : Json) : Option Version :=
  match j with
  | .null =>
      some { version := 0, timestamp := 0, typeSchema := "", evaluator := none,
             createdBy := "" }
  | .obj fields =>
      match decIntField fields "version", decNumField fields "timestamp",
            decStringField fields "type_schema",
            decEvaluatorField fields "evaluator",
            decStringField fields "created_by" with
      | some version, some timestamp, some typeSchema, some evaluator,
        some createdBy =>
          some { version := version, timestamp := timestamp,
                 typeSchema := typeSchema, evaluator := evaluator,
                 createdBy := createdBy }
      | _, _, _, _, _ => none
  | _ => none

/-- Unmarshal a []Version-typed struct field: absent or null gives an
empty list. -/
def decVersionsField (fields : List (String × Json)) (k : String) :
    Option (List Version) :=
  match getField fields k with
  | none => some []
  | some .null => some []
  | some (.arr xs) => xs.mapM decodeVersion
  | some _ => none

/-- Unmarshal a CustomAttestationType from JSON.  Note there is no
top-level evaluator field in the Go struct: any such member of the JSON
document is ignored. -/
def decodeCustomAttestationType (j : Json) : Option CustomAttestationType :=
  match j with
  | .null =>
      some { name := "", description := "", schema := "", jqRules := [],
             versions := [], archived := false, org := "" }
  | .obj fields =>
      match decStringField fields "name", decStringField fields "description",
            decVersionsField fields "versions", decBoolField fields "archived",
            decStringField fields "org" with
      | some name, some description, some versions, some archived, some org =>
          some { name := name, description := description, schema := "",
                 jqRules := [], versions := versions, archived := archived,
                 org := org }
      | _, _, _, _, _ => none
  | _ => none

/-- CreateCustomAttestationTypeRequest is the user-facing request format
(pkg/client/custom_attestation_types.go). -/
structure CreateCustomAttestationTypeRequest where
  name : String
  description : String
  schema : String
  jqRules : List String
deriving Repr

/-- fromAPIFormat converts an API response to user-facing format,
extracting schema and jq rules from the latest version, which is the first
element of the versions array (pkg/client/custom_attestation_types.go
lines 68-83).  Modelled as a pure function returning the updated struct
(the Go method mutates its receiver). -/
def fromAPIFormat (at0 : CustomAttestationType) : CustomAttestationType :=
  match at0.versions with
  | [] => at0
  | latestVersion :: _ =>
      let at1 := { at0 with schema := latestVersion.typeSchema }
      match latestVersion.evaluator with
      | some ev =>
          if ev.contentType == "jq" then { at1 with jqRules := ev.rules } else at1
      | none => at1

/-! ## Client error layer (pkg/client/errors.go, client.go) -/

/-- APIError represents an error returned by the Kosli API
(pkg/client/errors.go). -/
structure APIError where
  statusCode : Nat
  message : String
  requestID : String
  method : String
  url : String
deriving Repr, DecidableEq

/-- A Go error value as produced by the client layer: either a (possibly
wrapped) plain error built with fmt.Errorf, or an APIError.  errors.As
finds an APIError only in the second constructor. -/
inductive GoError where
  | str (msg : String)
  | api (e : APIError)
deriving Repr, DecidableEq

/-- IsNotFound returns true if the error is a 404 Not Found APIError
(pkg/client/errors.go lines 38-41). -/
def IsNotFound : GoError → Bool
  | .api e => e.statusCode == 404
  | .str _ => false

/-- The subset of Go's net/http.StatusText table reachable in this model;
Go likewise returns "" for status codes it does not know. -/
def statusText (code : Nat) : String :=
  if code == 200 then "OK"
  else if code == 201 then "Created"
  else if code == 204 then "No Content"
  else if code == 400 then "Bad Request"
  else if code == 401 then "Unauthorized"
  else if code == 403 then "Forbidden"
  else if code == 404 then "Not Found"
  else if code == 409 then "Conflict"
  else if code == 429 then "Too Many Requests"
  else if code == 500 then "Internal Server Error"
  else if code == 502 then "Bad Gateway"
  else if code == 503 then "Service Unavailable"
  else ""

/-- An HTTP response as seen by the client after httpClient.Do succeeds.
The body is none when reading it fails (io.ReadAll error); requestID is
the value of the X-Request-ID header ("" when absent). -/
structure HttpResponse where
  statusCode : Nat
  body : Option String
  requestID : String
  method : String
  url : String
deriving Repr, DecidableEq

/-- apiErrorResponse is the error response format from the Kosli API
(pkg/client/errors.go lines 80-84). -/
structure ApiErrorResponse where
  message : String
  code : String
  error : String
deriving Repr, DecidableEq

/-- Unmarshal an apiErrorResponse struct from a JSON document. -/
def decodeApiErrorResponse (j : Json) : Option ApiErrorResponse :=
  match j with
  | .null => some { message := "", code := "", error := "" }
  | .obj fields =>
      match decStringField fields "message", decStringField fields "code",
            decStringField fields "error" with
      | some message, some code, some error =>
          some { message := message, code := code, error := error }
      | _, _, _ => none
  | _ => none

/-- json.Unmarshal of a response body into apiErrorResponse. -/
def unmarshalApiErrorResponse (body : String) : Option ApiErrorResponse :=
  (Json.parse body).bind decodeApiErrorResponse

/-- parseErrorResponse extracts error details from an API response
(pkg/client/errors.go lines 87-124).  The message is the JSON message
field if non-empty, else the JSON error field if non-empty, else the
status text; when the body does not unmarshal, the raw body is used if its
byte length is strictly between 0 and 500, else the status text; when the
body cannot be read at all, the status text. -/
def parseErrorResponse (resp : HttpResponse) : APIError :=
  let base : APIError :=
    { statusCode := resp.statusCode, message := "",
      requestID := resp.requestID, method := resp.method, url := resp.url }
  match resp.body with
  | none => { base with message := statusText resp.statusCode }
  | some body =>
      match unmarshalApiErrorResponse body with
      | some errorResp =>
          if errorResp.message != "" then { base with message := errorResp.message }
          else if errorResp.error != "" then { base with message := errorResp.error }
          else { base with message := statusText resp.statusCode }
      | none =>
          if 0 < body.utf8ByteSize ∧ body.utf8ByteSize < 500 then
            { base with message := body }
          else { base with message := statusText resp.statusCode }

/-- What the transport returns for one HTTP request: either httpClient.Do
fails outright, or it yields a response. -/
inductive DoResult where
  | transportErr (msg : String)
  | response (r : HttpResponse)
deriving Repr, DecidableEq

/-- doRequest performs an HTTP request with authentication and error
handling (pkg/client/client.go lines 265-305): a transport failure is
wrapped, a non-2xx status becomes an APIError via parseErrorResponse. -/
def doRequest (res : DoResult) : Except GoError HttpResponse :=
  match res with
  | .transportErr m => .error (.str ("failed to execute request: " ++ m))
  | .response r =>
      if r.statusCode < 200 ∨ 300 ≤ r.statusCode then
        .error (.api (parseErrorResponse r))
      else .ok r

/-- ParseResponse reads and unmarshals a JSON response body
(pkg/client/client.go lines 315-328), here specialised by a decoder for
the target struct. -/
def parseResponseWith {α : Type} (decode : Json → Option α) (r : HttpResponse) :
    Except GoError α :=
  match r.body with
  | none => .error (.str "failed to read response body")
  | some b =>
      match Json.parse b with
      | none => .error (.str "failed to unmarshal response")
      | some j =>
          match decode j with
          | none => .error (.str "failed to unmarshal response")
          | some a => .ok a

/-- Client.GetEnvironment (pkg/client/environments.go lines 56-73): GET
then parse the body into an Environment. -/
def getEnvironment (res : DoResult) : Except GoError Environment := do
  let r ← doRequest res
  parseResponseWith decodeEnvironment r

/-- Client.CreateEnvironment (pkg/client/environments.go lines 78-100):
PUT the upsert payload; the response body is an acknowledgement and is
discarded. -/
def createEnvironment (res : DoResult) : Except GoError Unit := do
  let _ ← doRequest res
  pure ()

/-- Client.ArchiveEnvironment (pkg/client/environments.go lines 103-115):
PUT to the archive path with no body; the response body is discarded. -/
def archiveEnvironment (res : DoResult) : Except GoError Unit := do
  let _ ← doRequest res
  pure ()

/-- Client.CreateCustomAttestationType
(pkg/client/custom_attestation_types.go lines 121-164): POST the multipart
payload with a hand-built request; statuses of 400 and above become
APIErrors, any other status than 201 is an unexpected-status error, and
the acknowledgement body is otherwise discarded. -/
def createCustomAttestationType (res : DoResult) : Except GoError Unit :=
  match res with
  | .transportErr m => .error (.str ("failed to execute request: " ++ m))
  | .response r =>
      if 400 ≤ r.statusCode then .error (.api (parseErrorResponse r))
      else if r.statusCode != 201 then
        .error (.str ("unexpected status code: " ++ toString r.statusCode))
      else .ok ()

/-- Client.GetCustomAttestationType
(pkg/client/custom_attestation_types.go lines 167-194): GET, parse the
body, then transform from API format to user format. -/
def getCustomAttestationType (res : DoResult) : Except GoError CustomAttestationType := do
  let r ← doRequest res
  let result ← parseResponseWith decodeCustomAttestationType r
  pure (fromAPIFormat result)

/-- Client.ArchiveCustomAttestationType
(pkg/client/custom_attestation_types.go lines 222-234). -/
def archiveCustomAttestationType (res : DoResult) : Except GoError Unit := do
  let _ ← doRequest res
  pure ()

/-! ## Provider handlers (internal/provider)

Each handler is modelled as a pure function from the terraform-supplied
data model and the transport's responses to the ordered list of API calls
it issues and its outcome.  Terraform framework values are modelled as
Option (none is null); ValueString and ValueBool of a null value return
the zero value, as in the framework. -/

/-- One call against the Kosli API, with the request data the provider
sent. -/
inductive ApiCall where
  | putEnvironment (req : CreateEnvironmentRequest)
  | getEnv (name : String)
  | archiveEnv (name : String)
  | postCustomAttestationType (req : CreateCustomAttestationTypeRequest)
  | getCustomAttestationTypeCall (name : String)
  | archiveCustomAttestationTypeCall (name : String)
deriving Repr

/-- The outcome of a handler invocation: a diagnostic added with AddError
(summary plus the underlying client error whose text is interpolated into
the detail), or success with the state record written back. -/
inductive HandlerOutcome (σ : Type) where
  | failure (summary : String) (err : GoError)
  | success (state : σ)
deriving Repr

/-- True on the success constructor. -/
def HandlerOutcome.isSuccess {σ : Type} : HandlerOutcome σ → Bool
  | .success _ => true
  | .failure _ _ => false

/-- environmentResourceModel (internal/provider/resource_environment.go
lines 32-37). -/
structure EnvironmentResourceModel where
  name : Option String
  type : Option String
  description : Option String
  includeScaling : Option Bool
deriving Repr, DecidableEq

/-- The upsert request environmentResource.Create and Update build from
the plan (resource_environment.go lines 110-115 and 194-199). -/
def environmentCreateRequest (data : EnvironmentResourceModel) :
    CreateEnvironmentRequest :=
  { name := data.name.getD "", type := data.type.getD "",
    description := data.description.getD "",
    includeScaling := data.includeScaling.getD false,
    includedEnvironments := [], policies := [] }

/-- Map a fetched Environment onto the resource model: empty description
becomes null, include_scaling is copied
(resource_environment.go lines 136-143). -/
def environmentApplyRead (data : EnvironmentResourceModel) (env : Environment) :
    EnvironmentResourceModel :=
  { data with
    description := if env.description == "" then none else some env.description,
    includeScaling := some env.includeScaling }

/-- environmentResource.Create (resource_environment.go lines 100-147):
upsert, then GET to populate state. -/
def environmentCreate (data : EnvironmentResourceModel)
    (putRes getRes : DoResult) :
    List ApiCall × HandlerOutcome EnvironmentResourceModel :=
  let createReq := environmentCreateRequest data
  match createEnvironment putRes with
  | .error e => ([.putEnvironment createReq], .failure "Error Creating Environment" e)
  | .ok _ =>
      match getEnvironment getRes with
      | .error e =>
          ([.putEnvironment createReq, .getEnv (data.name.getD "")],
           .failure "Error Reading Environment After Creation" e)
      | .ok env =>
          ([.putEnvironment createReq, .getEnv (data.name.getD "")],
           .success (environmentApplyRead data env))

/-- environmentResource.Read (resource_environment.go lines 150-180). -/
def environmentRead (data : EnvironmentResourceModel) (getRes : DoResult) :
    List ApiCall × HandlerOutcome EnvironmentResourceModel :=
  match getEnvironment getRes with
  | .error e =>
      ([.getEnv (data.name.getD "")], .failure "Error Reading Environment" e)
  | .ok env =>
      ([.getEnv (data.name.getD "")], .success (environmentApplyRead data env))

/-- environmentResource.Update (resource_environment.go lines 184-231). -/
def environmentUpdate (data : EnvironmentResourceModel)
    (putRes getRes : DoResult) :
    List ApiCall × HandlerOutcome EnvironmentResourceModel :=
  let createReq := environmentCreateRequest data
  match createEnvironment putRes with
  | .error e => ([.putEnvironment createReq], .failure "Error Updating Environment" e)
  | .ok _ =>
      match getEnvironment getRes with
      | .error e =>
          ([.putEnvironment createReq, .getEnv (data.name.getD "")],
           .failure "Error Reading Environment After Update" e)
      | .ok env =>
          ([.putEnvironment createReq, .getEnv (data.name.getD "")],
           .success (environmentApplyRead data env))

/-- environmentResource.Delete (resource_environment.go lines 235-254):
one archive call; on success the framework discards the state (success
Unit), on failure a diagnostic is added and the state is kept. -/
def environmentDelete (data : EnvironmentResourceModel) (archiveRes : DoResult) :
    List ApiCall × HandlerOutcome Unit :=
  match archiveEnvironment archiveRes with
  | .error e =>
      ([.archiveEnv (data.name.getD "")], .failure "Error Deleting Environment" e)
  | .ok _ => ([.archiveEnv (data.name.getD "")], .success ())

/-- logicalEnvironmentResourceModel
(internal/provider/resource_logical_environment.go lines 31-36).  The
included_environments list is required and already extracted to []string
by ElementsAs. -/
structure LogicalEnvironmentResourceModel where
  name : Option String
  type : Option String
  description : Option String
  includedEnvironments : List String
deriving Repr, DecidableEq

/-- The upsert request the logical-environment Create and Update handlers
build from the plan, with the fixed type "logical"
(resource_logical_environment.go lines 115-120 and 222-227). -/
def logicalEnvironmentCreateRequest (data : LogicalEnvironmentResourceModel) :
    CreateEnvironmentRequest :=
  { name := data.name.getD "", type := "logical",
    description := data.description.getD "",
    includeScaling := false,
    includedEnvironments := data.includedEnvironments, policies := [] }

/-- Map a fetched Environment onto the logical-environment model: type and
description are overwritten from the response (empty description becomes
null), while included_environments keeps the previously known value — the
workaround for the API not returning it
(resource_logical_environment.go lines 145-156). -/
def logicalEnvironmentApplyRead (data : LogicalEnvironmentResourceModel)
    (preservedIncludedEnvs : List String) (env : Environment) :
    LogicalEnvironmentResourceModel :=
  { data with
    type := some env.type,
    description := if env.description == "" then none else some env.description,
    includedEnvironments := preservedIncludedEnvs }

/-- logicalEnvironmentResource.Create
(resource_logical_environment.go lines 98-160). -/
def logicalEnvironmentCreate (data : LogicalEnvironmentResourceModel)
    (putRes getRes : DoResult) :
    List ApiCall × HandlerOutcome LogicalEnvironmentResourceModel :=
  let createReq := logicalEnvironmentCreateRequest data
  match createEnvironment putRes with
  | .error e =>
      ([.putEnvironment createReq], .failure "Error Creating Logical Environment" e)
  | .ok _ =>
      let preservedIncludedEnvs := data.includedEnvironments
      match getEnvironment getRes with
      | .error e =>
          ([.putEnvironment createReq, .getEnv (data.name.getD "")],
           .failure "Error Reading Logical Environment After Creation" e)
      | .ok env =>
          ([.putEnvironment createReq, .getEnv (data.name.getD "")],
           .success (logicalEnvironmentApplyRead data preservedIncludedEnvs env))

/-- logicalEnvironmentResource.Read
(resource_logical_environment.go lines 163-201). -/
def logicalEnvironmentRead (data : LogicalEnvironmentResourceModel)
    (getRes : DoResult) :
    List ApiCall × HandlerOutcome LogicalEnvironmentResourceModel :=
  let preservedIncludedEnvs := data.includedEnvironments
  match getEnvironment getRes with
  | .error e =>
      ([.getEnv (data.name.getD "")],
       .failure "Error Reading Logical Environment" e)
  | .ok env =>
      ([.getEnv (data.name.getD "")],
       .success (logicalEnvironmentApplyRead data preservedIncludedEnvs env))

/-- logicalEnvironmentResource.Update
(resource_logical_environment.go lines 205-266). -/
def logicalEnvironmentUpdate (data : LogicalEnvironmentResourceModel)
    (putRes getRes : DoResult) :
    List ApiCall × HandlerOutcome LogicalEnvironmentResourceModel :=
  let createReq := logicalEnvironmentCreateRequest data
  match createEnvironment putRes with
  | .error e =>
      ([.putEnvironment createReq], .failure "Error Updating Logical Environment" e)
  | .ok _ =>
      let preservedIncludedEnvs := data.includedEnvironments
      match getEnvironment getRes with
      | .error e =>
          ([.putEnvironment createReq, .getEnv (data.name.getD "")],
           .failure "Error Reading Logical Environment After Update" e)
      | .ok env =>
          ([.putEnvironment createReq, .getEnv (data.name.getD "")],
           .success (logicalEnvironmentApplyRead data preservedIncludedEnvs env))

/-- logicalEnvironmentResource.Delete
(resource_logical_environment.go lines 270-289). -/
def logicalEnvironmentDelete (data : LogicalEnvironmentResourceModel)
    (archiveRes : DoResult) :
    List ApiCall × HandlerOutcome Unit :=
  match archiveEnvironment archiveRes with
  | .error e =>
      ([.archiveEnv (data.name.getD "")],
       .failure "Error Deleting Logical Environment" e)
  | .ok _ => ([.archiveEnv (data.name.getD "")], .success ())

/-- customAttestationTypeResourceModel (internal/provider/provider.go
lines 449-454).  The schema attribute is a jsontypes.Normalized string;
jq_rules is required and already extracted to []string. -/
structure CustomAttestationTypeResourceModel where
  name : Option String
  description : Option String
  schema : Option String
  jqRules : List String
deriving Repr, DecidableEq

/-- The write request customAttestationTypeResource.Create and Update
build from the plan (provider.go lines 529-534 and 627-632). -/
def customAttestationTypeCreateRequest
    (data : CustomAttestationTypeResourceModel) :
    CreateCustomAttestationTypeRequest :=
  { name := data.name.getD "", description := data.description.getD "",
    schema := data.schema.getD "", jqRules := data.jqRules }

/-- Map a fetched CustomAttestationType onto the resource model
(provider.go lines 555-565): description and schema are set
unconditionally (no empty-to-null mapping here), jq_rules is rebuilt from
the response. -/
def customAttestationTypeApplyRead (data : CustomAttestationTypeResourceModel)
    (at0 : CustomAttestationType) : CustomAttestationTypeResourceModel :=
  { data with
    description := some at0.description,
    schema := some at0.schema,
    jqRules := at0.jqRules }

/-- customAttestationTypeResource.Create (provider.go lines 511-569):
write, then GET to populate state. -/
def customAttestationTypeCreate (data : CustomAttestationTypeResourceModel)
    (postRes getRes : DoResult) :
    List ApiCall × HandlerOutcome CustomAttestationTypeResourceModel :=
  let createReq := customAttestationTypeCreateRequest data
  match createCustomAttestationType postRes with
  | .error e =>
      ([.postCustomAttestationType createReq],
       .failure "Error Creating Custom Attestation Type" e)
  | .ok _ =>
      match getCustomAttestationType getRes with
      | .error e =>
          ([.postCustomAttestationType createReq,
            .getCustomAttestationTypeCall (data.name.getD "")],
           .failure "Error Reading Custom Attestation Type After Creation" e)
      | .ok attestationType =>
          ([.postCustomAttestationType createReq,
            .getCustomAttestationTypeCall (data.name.getD "")],
           .success (customAttestationTypeApplyRead data attestationType))

/-- environmentDataSourceModel
(internal/provider/data_source_environment.go lines 27-34). -/
structure EnvironmentDataSourceModel where
  name : Option String
  type : Option String
  description : Option String
  includeScaling : Option Bool
  lastModifiedAt : Option Rat
  lastReportedAt : Option Rat
deriving Repr, DecidableEq

/-- environmentDataSource.Read (data_source_environment.go lines 96-138):
GET, then map every field, with empty description becoming null and a nil
last_reported_at becoming a null value rather than zero. -/
def environmentDataSourceRead (data : EnvironmentDataSourceModel)
    (getRes : DoResult) :
    List ApiCall × HandlerOutcome EnvironmentDataSourceModel :=
  match getEnvironment getRes with
  | .error e =>
      ([.getEnv (data.name.getD "")], .failure "Error Reading Environment" e)
  | .ok env =>
      ([.getEnv (data.name.getD "")], .success
        { name := some env.name,
          type := some env.type,
          description := if env.description == "" then none else some env.description,
          includeScaling := some env.includeScaling,
          lastModifiedAt := some env.lastModifiedAt,
          lastReportedAt :=
            match env.lastReportedAt with
            | none => none
            | some v => some v })

/-! ## Concrete fixtures

Concrete requests, responses and records used to instantiate the theorems
below on explicit inputs. -/

/-- A 200 acknowledgement, what the API answers to a successful upsert. -/
def okPut : DoResult :=
  .response { statusCode := 200, body := some "OK", requestID := "",
              method := "PUT", url := "/environments/org" }

/-- A 201 acknowledgement, what the API answers to a successful
custom-attestation-type write. -/
def okPost : DoResult :=
  .response { statusCode := 201, body := some "OK", requestID := "",
              method := "POST", url := "/custom-attestation-types/org" }

/-- A logical-environment plan with two included environments. -/
def w1Data : LogicalEnvironmentResourceModel :=
  { name := some "app-prod", type := none, description := none,
    includedEnvironments := ["env-a", "env-b"] }

/-- A GET response body that omits included_environments entirely, as the
Kosli API does. -/
def w1Body : String :=
  "\x7b\"name\":\"app-prod\",\"type\":\"logical\",\"description\":\"\"\x7d"

/-- The GET response carrying w1Body. -/
def w1Get : DoResult :=
  .response { statusCode := 200, body := some w1Body, requestID := "",
              method := "GET", url := "/environments/org/app-prod" }

/-- The Environment w1Body unmarshals to. -/
def w1Env : Environment :=
  { org := "", name := "app-prod", type := "logical", description := "",
    lastModifiedAt := 0, lastReportedAt := none, state := .null,
    includeScaling := false, requireProvenance := false, tags := none,
    policies := none, includedEnvironments := none }

/-- The state record the logical-environment Create handler writes for
w1Data and w1Get. -/
def w1State : LogicalEnvironmentResourceModel :=
  { name := some "app-prod", type := some "logical", description := none,
    includedEnvironments := ["env-a", "env-b"] }

/-- A 500 response with a JSON error body. -/
def c2Resp500 : HttpResponse :=
  { statusCode := 500, body := some "\x7b\"message\":\"boom\"\x7d",
    requestID := "req-1", method := "PUT", url := "/environments/org" }

/-- The APIError parseErrorResponse extracts from c2Resp500. -/
def c2E500 : APIError :=
  { statusCode := 500, message := "boom", requestID := "req-1",
    method := "PUT", url := "/environments/org" }

/-- A transport-level failure for the follow-up read. -/
def c2ReadFail : DoResult := .transportErr "connection refused"

/-- An attestation-type plan. -/
def c2CatData : CustomAttestationTypeResourceModel :=
  { name := some "coverage-check", description := none,
    schema := some "\x7b\"type\":\"object\"\x7d", jqRules := [".coverage >= 80"] }

/-- An environment plan. -/
def c2EnvData : EnvironmentResourceModel :=
  { name := some "prod", type := some "K8S", description := none,
    includeScaling := none }

/-- The schema literal of the C4 example. -/
def c4SchemaLit : String := "\x7b\"type\":\"object\"\x7d"

/-- The wire body of the C4 example: one version with a jq evaluator. -/
def c4Body : String :=
  "\x7b\"name\":\"coverage\",\"versions\":[\x7b\"version\":2,\"type_schema\":\"\x7b\\\"type\\\":\\\"object\\\"\x7d\",\"evaluator\":\x7b\"content_type\":\"jq\",\"rules\":[\".x>0\"]\x7d\x7d]\x7d"

/-- The GET response carrying c4Body. -/
def c4Res : DoResult :=
  .response { statusCode := 200, body := some c4Body, requestID := "",
              method := "GET", url := "/custom-attestation-types/org/coverage" }

/-- The latest (and only) version of the C4 example. -/
def c4Version : Version :=
  { version := 2, timestamp := 0, typeSchema := c4SchemaLit,
    evaluator := some { contentType := "jq", rules := [".x>0"] },
    createdBy := "" }

/-- What GetCustomAttestationType returns for c4Res, after fromAPIFormat. -/
def c4Result : CustomAttestationType :=
  { name := "coverage", description := "", schema := c4SchemaLit,
    jqRules := [".x>0"], versions := [c4Version], archived := false, org := "" }

/-- A wire body with an empty versions list and a top-level evaluator
member, the second wire shape described by the spec. -/
def c5Body : String :=
  "\x7b\"name\":\"t\",\"versions\":[],\"evaluator\":\x7b\"content_type\":\"jq\",\"rules\":[\".x>0\"]\x7d\x7d"

/-- The GET response carrying c5Body. -/
def c5Res : DoResult :=
  .response { statusCode := 200, body := some c5Body, requestID := "",
              method := "GET", url := "/custom-attestation-types/org/t" }

/-- What GetCustomAttestationType returns for c5Res: the top-level
evaluator is dropped by unmarshalling and schema and jq rules stay empty. -/
def c5Result : CustomAttestationType :=
  { name := "t", description := "", schema := "", jqRules := [],
    versions := [], archived := false, org := "" }

/-- A tracked logical environment whose remote counterpart is gone. -/
def c6State : LogicalEnvironmentResourceModel :=
  { name := some "gone-env", type := some "logical", description := none,
    includedEnvironments := ["env-a"] }

/-- A 404 response for a read of c6State. -/
def c6Resp404 : HttpResponse :=
  { statusCode := 404, body := some "\x7b\"message\":\"Environment not found\"\x7d",
    requestID := "", method := "GET", url := "/environments/org/gone-env" }

/-- A 500 response for a read of c6State. -/
def c6Resp500 : HttpResponse :=
  { statusCode := 500, body := some "\x7b\"message\":\"boom\"\x7d",
    requestID := "", method := "GET", url := "/environments/org/gone-env" }

/-- A 200 acknowledgement for an archive call. -/
def c7Resp200 : HttpResponse :=
  { statusCode := 200, body := some "OK", requestID := "",
    method := "PUT", url := "/environments/org/prod/archive" }

/-- The data-source query for C8. -/
def c8Data : EnvironmentDataSourceModel :=
  { name := some "never-reported", type := none, description := none,
    includeScaling := none, lastModifiedAt := none, lastReportedAt := none }

/-- A GET body whose last_reported_at is the JSON null literal. -/
def c8Body : String :=
  "\x7b\"name\":\"never-reported\",\"type\":\"K8S\",\"last_modified_at\":171.5,\"last_reported_at\":null\x7d"

/-- The GET response carrying c8Body. -/
def c8Get : DoResult :=
  .response { statusCode := 200, body := some c8Body, requestID := "",
              method := "GET", url := "/environments/org/never-reported" }

/-- The Environment c8Body unmarshals to. -/
def c8Env : Environment :=
  { org := "", name := "never-reported", type := "K8S", description := "",
    lastModifiedAt := mkRat 1715 10, lastReportedAt := none, state := .null,
    includeScaling := false, requireProvenance := false, tags := none,
    policies := none, includedEnvironments := none }

/-- The data-source state written for c8Data and c8Get. -/
def c8State : EnvironmentDataSourceModel :=
  { name := some "never-reported", type := some "K8S", description := none,
    includeScaling := some false, lastModifiedAt := some (mkRat 1715 10),
    lastReportedAt := none }

/-- A non-JSON response body of exactly 500 bytes. -/
def c9LongBody : String := String.mk (List.replicate 500 'a')

/-- A 500 response carrying c9LongBody. -/
def c9Resp : HttpResponse :=
  { statusCode := 500, body := some c9LongBody, requestID := "",
    method := "GET", url := "/environments/org" }

/-- The state the environment Create handler writes for c2EnvData and a
response with an empty description. -/
def c10State : EnvironmentResourceModel :=
  { name := some "prod", type := some "K8S", description := none,
    includeScaling := some false }

/-- The spec's key-order example, first encoding. -/
def c3Doc1 : String :=
  "\x7b\"type\":\"object\",\"properties\":\x7b\"a\":1\x7d\x7d"

/-- The spec's key-order example, second encoding (keys permuted, spacing
changed). -/
def c3Doc2 : String :=
  "\x7b \"properties\": \x7b \"a\": 1 \x7d, \"type\": \"object\" \x7d"

/-- The parsed value of c3Doc1. -/
def c3Val1 : Json :=
  .obj [("type", .str "object"), ("properties", .obj [("a", .num 1)])]

/-- The parsed value of c3Doc2. -/
def c3Val2 : Json :=
  .obj [("properties", .obj [("a", .num 1)]), ("type", .str "object")]

/-! ### Properties of structural equality -/

theorem lookup_isSome_of_mem {k : String} {v : Json} :
    ∀ {fs : List (String × Json)}, (k, v) ∈ fs → (List.lookup k fs).isSome = true := by
  intro fs h
  induction fs with
  | nil => cases h
  | cons p rest ih =>
      obtain ⟨k2, v2⟩ := p
      rcases List.mem_cons.mp h with heq | hmem
      · obtain ⟨rfl, rfl⟩ := Prod.mk.injEq .. ▸ heq
        simp [List.lookup]
      · by_cases hk : k == k2
        · simp [List.lookup, hk]
        · simp only [List.lookup, hk]
          exact ih hmem

theorem lookup_self_of_wf {k : String} {v : Json} :
    ∀ {fs : List (String × Json)}, wfJsonFields fs = true → (k, v) ∈ fs →
      List.lookup k fs = some v := by
  intro fs hwf h
  induction fs with
  | nil => cases h
  | cons p rest ih =>
      obtain ⟨k2, v2⟩ := p
      simp only [wfJsonFields, Bool.and_eq_true] at hwf
      rcases List.mem_cons.mp h with heq | hmem
      · obtain ⟨rfl, rfl⟩ := Prod.mk.injEq .. ▸ heq
        simp [List.lookup]
      · by_cases hk : k == k2
        · exfalso
          have hkk : k = k2 := eq_of_beq hk
          subst hkk
          have hs := lookup_isSome_of_mem hmem
          rw [Option.isNone_iff_eq_none.mp hwf.1.1] at hs
          cases hs
        · simp only [List.lookup, hk]
          exact ih hwf.2 hmem

theorem wfJson_of_mem {k : String} {v : Json} :
    ∀ {fs : List (String × Json)}, wfJsonFields fs = true → (k, v) ∈ fs →
      wfJson v = true := by
  intro fs hwf h
  induction fs with
  | nil => cases h
  | cons p rest ih =>
      obtain ⟨k2, v2⟩ := p
      simp only [wfJsonFields, Bool.and_eq_true] at hwf
      rcases List.mem_cons.mp h with heq | hmem
      · obtain ⟨rfl, rfl⟩ := Prod.mk.injEq .. ▸ heq
        exact hwf.1.2
      · exact ih hwf.2 hmem

theorem lookup_none_of_not_mem_keys {k : String} :
    ∀ {fs : List (String × Json)}, k ∉ fs.map Prod.fst → List.lookup k fs = none := by
  intro fs h
  induction fs with
  | nil => rfl
  | cons p rest ih =>
      obtain ⟨k2, v2⟩ := p
      simp only [List.map_cons, List.mem_cons] at h
      push_neg at h
      have hk : (k == k2) = false := beq_eq_false_iff_ne.mpr h.1
      simp only [List.lookup, hk]
      exact ih h.2

theorem keys_nodup_of_wf :
    ∀ {fs : List (String × Json)}, wfJsonFields fs = true →
      (fs.map Prod.fst).Nodup := by
  intro fs hwf
  induction fs with
  | nil => exact List.nodup_nil
  | cons p rest ih =>
      obtain ⟨k2, v2⟩ := p
      simp only [wfJsonFields, Bool.and_eq_true] at hwf
      refine List.nodup_cons.mpr ⟨?_, ih hwf.2⟩
      intro hmem
      obtain ⟨⟨k3, v3⟩, hin, hfst⟩ := List.mem_map.mp hmem
      simp only at hfst
      subst hfst
      have hs := lookup_isSome_of_mem hin
      rw [Option.isNone_iff_eq_none.mp hwf.1.1] at hs
      cases hs

theorem lookup_self_of_nodup {k : String} {v : Json} :
    ∀ {fs : List (String × Json)}, (fs.map Prod.fst).Nodup → (k, v) ∈ fs →
      List.lookup k fs = some v := by
  intro fs hnd h
  induction fs with
  | nil => cases h
  | cons p rest ih =>
      obtain ⟨k2, v2⟩ := p
      simp only [List.map_cons, List.nodup_cons] at hnd
      rcases List.mem_cons.mp h with heq | hmem
      · obtain ⟨rfl, rfl⟩ := Prod.mk.injEq .. ▸ heq
        simp [List.lookup]
      · by_cases hk : k == k2
        · exfalso
          have hkk : k = k2 := eq_of_beq hk
          subst hkk
          exact hnd.1 (List.mem_map.mpr ⟨(k, v), hmem, rfl⟩)
        · simp only [List.lookup, hk]
          exact ih hnd.2 hmem

/-- Structural equality is reflexive on well-formed JSON values. -/
theorem structEq_refl (j : Json) (h : wfJson j = true) : structEq j j = true := by
  generalize hn : sizeOf j = n
  induction n using Nat.strong_induction_on generalizing j with
  | _ n ih =>
    cases j with
    | null => rfl
    | bool b => simp [structEq]
    | num q => simp [structEq]
    | str s => simp [structEq]
    | arr xs =>
        simp only [structEq]
        have hx : ∀ x ∈ xs, wfJson x = true ∧ sizeOf x < n := by
          intro x hxmem
          constructor
          · simp only [wfJson] at h
            clear hn
            induction xs with
            | nil => cases hxmem
            | cons y ys ihy =>
                simp only [wfJsonList, Bool.and_eq_true] at h
                rcases List.mem_cons.mp hxmem with rfl | hmem
                · exact h.1
                · exact ihy h.2 hmem
          · have h1 : sizeOf x < sizeOf xs := List.sizeOf_lt_of_mem hxmem
            have h2 : sizeOf (Json.arr xs) = 1 + sizeOf xs := by simp
            omega
        clear h hn
        induction xs with
        | nil => rfl
        | cons y ys ihy =>
            simp only [structEqList, Bool.and_eq_true]
            exact ⟨ih (sizeOf y) (hx y (List.mem_cons_self y ys)).2 y
                     (hx y (List.mem_cons_self y ys)).1 rfl,
                   ihy (fun x hm => hx x (List.mem_cons_of_mem y hm))⟩
    | obj fs =>
        simp only [structEq, Bool.and_eq_true]
        constructor
        · exact beq_self_eq_true fs.length
        · simp only [wfJson] at h
          have hv : ∀ p ∈ fs, sizeOf p.2 < n := by
            intro p hpmem
            have h1 : sizeOf p < sizeOf fs := List.sizeOf_lt_of_mem hpmem
            have h2 : sizeOf (Json.obj fs) = 1 + sizeOf fs := by simp
            obtain ⟨pk, pv⟩ := p
            have h3 : sizeOf (pk, pv) = 1 + sizeOf pk + sizeOf pv := by simp
            simp only at h1 h3 ⊢
            omega
          have haux : ∀ rest, (∀ p ∈ rest, p ∈ fs) → structEqFields rest fs = true := by
            intro rest
            induction rest with
            | nil => intro _; rfl
            | cons p ps ihp =>
                intro hsub
                obtain ⟨k, v⟩ := p
                have hmem : (k, v) ∈ fs := hsub _ (List.mem_cons_self _ _)
                simp only [structEqFields, Bool.and_eq_true]
                constructor
                · rw [lookup_self_of_wf h hmem]
                  exact ih (sizeOf v) (hv (k, v) hmem) v (wfJson_of_mem h hmem) rfl
                · exact ihp (fun q hq => hsub q (List.mem_cons_of_mem _ hq))
          exact haux fs (fun p hp => hp)

/-- Object field order is insignificant for structural equality: an object
compares equal to any permutation of its (well-formed) field list. -/
theorem structEq_obj_perm (fs gs : List (String × Json))
    (hwf : wfJsonFields fs = true) (hp : fs.Perm gs) :
    structEq (.obj fs) (.obj gs) = true := by
  simp only [structEq, Bool.and_eq_true]
  constructor
  · rw [hp.length_eq]
    exact beq_self_eq_true gs.length
  · have hnd : (gs.map Prod.fst).Nodup := ((hp.map Prod.fst).nodup_iff).mp (keys_nodup_of_wf hwf)
    have haux : ∀ rest, (∀ p ∈ rest, p ∈ fs) → structEqFields rest gs = true := by
      intro rest
      induction rest with
      | nil => intro _; rfl
      | cons p ps ihp =>
          intro hsub
          obtain ⟨k, v⟩ := p
          have hmemf : (k, v) ∈ fs := hsub _ (List.mem_cons_self _ _)
          have hmemg : (k, v) ∈ gs := hp.mem_iff.mp hmemf
          simp only [structEqFields, Bool.and_eq_true]
          constructor
          · rw [lookup_self_of_nodup hnd hmemg]
            exact structEq_refl v (wfJson_of_mem hwf hmemf)
          · exact ihp (fun q hq => hsub q (List.mem_cons_of_mem _ hq))
    exact haux fs (fun p hp2 => hp2)



/-! ### Helper lemmas shared by several claims -/

theorem parseErrorResponse_statusCode (r : HttpResponse) :
    (parseErrorResponse r).statusCode = r.statusCode := by
  unfold parseErrorResponse
  repeat' split <;> try rfl

theorem decodeCustomAttestationType_userFields (j : Json)
    (b : CustomAttestationType) (h : decodeCustomAttestationType j = some b) :
    b.jqRules = [] ∧ b.schema = "" := by
  cases j with
  | null =>
      simp only [decodeCustomAttestationType, Option.some.injEq] at h
      rw [← h]
      exact ⟨rfl, rfl⟩
  | obj fields =>
      simp only [decodeCustomAttestationType] at h
      split at h
      · simp only [Option.some.injEq] at h
        rw [← h]
        exact ⟨rfl, rfl⟩
      · cases h
  | bool b2 => simp [decodeCustomAttestationType] at h
  | num q => simp [decodeCustomAttestationType] at h
  | str s2 => simp [decodeCustomAttestationType] at h
  | arr xs => simp [decodeCustomAttestationType] at h

theorem doRequest_response_error (r : HttpResponse)
    (hs : r.statusCode < 200 ∨ 300 ≤ r.statusCode) :
    doRequest (.response r) = .error (.api (parseErrorResponse r)) := by
  show (if r.statusCode < 200 ∨ 300 ≤ r.statusCode then
          Except.error (GoError.api (parseErrorResponse r))
        else Except.ok r) = _
  rw [if_pos hs]

theorem doRequest_response_ok (r : HttpResponse)
    (hs : ¬(r.statusCode < 200 ∨ 300 ≤ r.statusCode)) :
    doRequest (.response r) = .ok r := by
  show (if r.statusCode < 200 ∨ 300 ≤ r.statusCode then
          Except.error (GoError.api (parseErrorResponse r))
        else Except.ok r) = _
  rw [if_neg hs]

theorem createEnvironment_response_error (r : HttpResponse)
    (hs : r.statusCode < 200 ∨ 300 ≤ r.statusCode) :
    createEnvironment (.response r) = .error (.api (parseErrorResponse r)) := by
  unfold createEnvironment
  rw [doRequest_response_error r hs]
  rfl

theorem createEnvironment_response_ok (r : HttpResponse)
    (hs : ¬(r.statusCode < 200 ∨ 300 ≤ r.statusCode)) :
    createEnvironment (.response r) = .ok () := by
  unfold createEnvironment
  rw [doRequest_response_ok r hs]
  rfl

theorem archiveEnvironment_response_error (r : HttpResponse)
    (hs : r.statusCode < 200 ∨ 300 ≤ r.statusCode) :
    archiveEnvironment (.response r) = .error (.api (parseErrorResponse r)) := by
  unfold archiveEnvironment
  rw [doRequest_response_error r hs]
  rfl

theorem archiveEnvironment_response_ok (r : HttpResponse)
    (hs : ¬(r.statusCode < 200 ∨ 300 ≤ r.statusCode)) :
    archiveEnvironment (.response r) = .ok () := by
  unfold archiveEnvironment
  rw [doRequest_response_ok r hs]
  rfl

theorem getEnvironment_response_error (r : HttpResponse)
    (hs : r.statusCode < 200 ∨ 300 ≤ r.statusCode) :
    getEnvironment (.response r) = .error (.api (parseErrorResponse r)) := by
  unfold getEnvironment
  rw [doRequest_response_error r hs]
  rfl

/-! ### Claim theorems -/

/-- C4: for every wire attestation-type object with a non-empty versions
list, fromAPIFormat yields the schema of the first (latest) version, and
the jq rules of that version's evaluator exactly when its content type is
"jq"; for any other content type, or an absent evaluator, the jq rules are
left untouched — and unmarshalled wire objects start with empty jqRules and
schema, so they stay empty.  On the claim's concrete input (one version
with type_schema equal to a JSON object-type schema and a jq evaluator with
rule ".x>0"), the pipeline yields a semantically equal schema and exactly
that rule list. -/
theorem fromAPIFormat_cons (at0 : CustomAttestationType) (v : Version)
    (rest : List Version) (hv : at0.versions = v :: rest) :
    fromAPIFormat at0 =
      (match v.evaluator with
       | some ev =>
           if ev.contentType == "jq" then
             { at0 with schema := v.typeSchema, jqRules := ev.rules }
           else { at0 with schema := v.typeSchema }
       | none => { at0 with schema := v.typeSchema }) := by
  unfold fromAPIFormat
  rw [hv]

theorem C4_transformer_extracts_latest_version (at0 : CustomAttestationType)
    (v : Version) (rest : List Version) (hv : at0.versions = v :: rest) :
    ((fromAPIFormat at0).schema = v.typeSchema
  ∧ (∀ ev, v.evaluator = some ev → ev.contentType = "jq" →
        (fromAPIFormat at0).jqRules = ev.rules)
  ∧ (∀ ev, v.evaluator = some ev → ev.contentType ≠ "jq" →
        (fromAPIFormat at0).jqRules = at0.jqRules)
  ∧ (v.evaluator = none → (fromAPIFormat at0).jqRules = at0.jqRules))
  ∧ (∀ j b, decodeCustomAttestationType j = some b →
        b.jqRules = [] ∧ b.schema = "")
  ∧ (getCustomAttestationType c4Res = .ok c4Result
  ∧ jsonSemanticEqual c4Result.schema "\x7b\"type\":\"object\"\x7d" = true
  ∧ c4Result.jqRules = [".x>0"]) := by
  refine ⟨⟨?_, ?_, ?_, ?_⟩, ?_, rfl, rfl, rfl⟩
  · rw [fromAPIFormat_cons at0 v rest hv]
    cases hev : v.evaluator with
    | none => rfl
    | some ev =>
        by_cases hct : (ev.contentType == "jq") = true <;> simp only [hct] <;> rfl
  · intro ev hev hct
    rw [fromAPIFormat_cons at0 v rest hv, hev]
    have hct2 : (ev.contentType == "jq") = true := beq_iff_eq.mpr hct
    simp only [hct2, if_true]
  · intro ev hev hct
    rw [fromAPIFormat_cons at0 v rest hv, hev]
    have hct2 : (ev.contentType == "jq") = false := beq_eq_false_iff_ne.mpr hct
    simp only [hct2, Bool.false_eq_true, if_false]
  · intro hev
    rw [fromAPIFormat_cons at0 v rest hv, hev]
  · exact fun j b h => decodeCustomAttestationType_userFields j b h

/-- C4 witness: the theorem applied to the concrete attestation type of
the claim's example. -/
theorem C4_witness :
    (fromAPIFormat c4Result).schema = c4SchemaLit
  ∧ (fromAPIFormat c4Result).jqRules = [".x>0"] :=
  ⟨(C4_transformer_extracts_latest_version c4Result c4Version [] rfl).1.1,
   (C4_transformer_extracts_latest_version c4Result c4Version [] rfl).1.2.1
     { contentType := "jq", rules := [".x>0"] } rfl rfl⟩

/-- C5 counterexample: a wire object with an empty versions list and a
top-level evaluator member carrying jq rules.  The claim says the
transformer falls back to the top-level evaluator and populates JqRules
with [".x>0"]; in fact the Go struct has no top-level evaluator field, the
member is dropped during unmarshalling, and the result of the full
GetCustomAttestationType pipeline has empty jqRules and schema. -/
theorem C5_counterexample :
    getCustomAttestationType c5Res = .ok c5Result
  ∧ c5Result.jqRules = [] ∧ c5Result.schema = "" :=
  ⟨rfl, rfl, rfl⟩

/-- C5 amended: the transformer extracts schema and rules from the nested
version data when the versions list is non-empty, but when the versions
list is empty it performs no fallback at all: fromAPIFormat returns its
input unchanged, and since unmarshalling never populates the user-facing
fields (they carry the json:"-" tag and there is no top-level evaluator
field in the struct), schema and jqRules remain empty. -/
theorem C5_empty_versions_leaves_fields_empty (at0 : CustomAttestationType)
    (h : at0.versions = []) :
    fromAPIFormat at0 = at0
  ∧ (∀ j b, decodeCustomAttestationType j = some b →
        b.jqRules = [] ∧ b.schema = "") := by
  constructor
  · unfold fromAPIFormat
    rw [h]
  · exact fun j b hb => decodeCustomAttestationType_userFields j b hb

/-- C5 amended witness: the amended theorem applied to the concrete
result of the counterexample pipeline. -/
theorem C5_amended_witness :
    fromAPIFormat c5Result = c5Result :=
  (C5_empty_versions_leaves_fields_empty c5Result rfl).1

/-- C6 counterexample: when the remote GET returns 404 during a
logical-environment Read, the handler produces a plain error diagnostic —
the same "Error Reading Logical Environment" failure outcome as a 500
server error — and emits no treat-as-absent signal; IsNotFound would
distinguish the two errors but no Read handler calls it.  This refutes the
claim that the handler signals "no longer exists" as an outcome distinct
from a reportable failure. -/
theorem C6_counterexample :
    (logicalEnvironmentRead c6State (.response c6Resp404)).2 =
      .failure "Error Reading Logical Environment" (.api (parseErrorResponse c6Resp404))
  ∧ (logicalEnvironmentRead c6State (.response c6Resp500)).2 =
      .failure "Error Reading Logical Environment" (.api (parseErrorResponse c6Resp500))
  ∧ IsNotFound (.api (parseErrorResponse c6Resp404)) = true :=
  ⟨rfl, rfl, rfl⟩

/-- C6 amended: every error status on the GET of a logical-environment
Read, 404 included, yields the same error diagnostic (summary "Error
Reading Logical Environment" with the classified APIError); the resource
is not removed from state.  The client-level IsNotFound predicate holds of
the produced error exactly when the status is 404, but the handler never
consults it. -/
theorem C6_read_404_is_plain_error (data : LogicalEnvironmentResourceModel)
    (r : HttpResponse) (hs : r.statusCode < 200 ∨ 300 ≤ r.statusCode) :
    logicalEnvironmentRead data (.response r) =
      ([.getEnv (data.name.getD "")],
       .failure "Error Reading Logical Environment" (.api (parseErrorResponse r)))
  ∧ IsNotFound (.api (parseErrorResponse r)) = (r.statusCode == 404) := by
  constructor
  · unfold logicalEnvironmentRead
    rw [getEnvironment_response_error r hs]
  · simp [IsNotFound, parseErrorResponse_statusCode]

/-- C6 amended witness: the amended theorem applied at the 404 response. -/
theorem C6_amended_witness :
    logicalEnvironmentRead c6State (.response c6Resp404) =
      ([.getEnv "gone-env"],
       .failure "Error Reading Logical Environment" (.api (parseErrorResponse c6Resp404)))
  ∧ IsNotFound (.api (parseErrorResponse c6Resp404)) = true :=
  ⟨(C6_read_404_is_plain_error c6State c6Resp404 (Or.inr (by decide))).1,
   (C6_read_404_is_plain_error c6State c6Resp404 (Or.inr (by decide))).2⟩

/-- C7: the environment Delete handler archives and is driven solely by
the archive response's status: any 2xx acknowledgement — which is what the
API returns when it accepts the archive call, in particular for names
already archived or absent, since the handler performs no existence or
archived-state check of its own — completes the delete with exactly one
archive call, and the state is discarded; the only failure path is the API
signalling a hard error (a non-2xx status, classified by
parseErrorResponse). -/
theorem C7_delete_success_iff_api_acknowledges
    (data : EnvironmentResourceModel) (r : HttpResponse) :
    (200 ≤ r.statusCode → r.statusCode < 300 →
       environmentDelete data (.response r) =
         ([.archiveEnv (data.name.getD "")], .success ()))
  ∧ (r.statusCode < 200 ∨ 300 ≤ r.statusCode →
       environmentDelete data (.response r) =
         ([.archiveEnv (data.name.getD "")],
          .failure "Error Deleting Environment" (.api (parseErrorResponse r)))) := by
  constructor
  · intro h1 h2
    have hs : ¬(r.statusCode < 200 ∨ 300 ≤ r.statusCode) := by omega
    unfold environmentDelete
    rw [archiveEnvironment_response_ok r hs]
  · intro hs
    unfold environmentDelete
    rw [archiveEnvironment_response_error r hs]

/-- C7 witness: the theorem applied to a 200 archive acknowledgement. -/
theorem C7_witness :
    environmentDelete c2EnvData (.response c7Resp200) =
      ([.archiveEnv "prod"], .success ()) :=
  (C7_delete_success_iff_api_acknowledges c2EnvData c7Resp200).1
    (by decide) (by decide)



/-- C1: for every logical-environment Create, Read and Update invocation
whose follow-up GET response omits included_environments (nil) or carries
it empty, the state record written on success keeps the previously known
list — from the plan on Create and Update, from the prior state on Read —
unchanged; and a GET body lacking the included_environments key indeed
unmarshals to a nil (none) value. -/
theorem C1_included_environments_preserved
    (data : LogicalEnvironmentResourceModel) (putRes getRes : DoResult)
    (env : Environment) (hget : getEnvironment getRes = .ok env)
    (homit : env.includedEnvironments = none ∨ env.includedEnvironments = some []) :
    (∀ st, (logicalEnvironmentCreate data putRes getRes).2 = .success st →
        st.includedEnvironments = data.includedEnvironments)
  ∧ (∀ st, (logicalEnvironmentRead data getRes).2 = .success st →
        st.includedEnvironments = data.includedEnvironments)
  ∧ (∀ st, (logicalEnvironmentUpdate data putRes getRes).2 = .success st →
        st.includedEnvironments = data.includedEnvironments)
  ∧ (∀ fields b, decodeEnvironment (.obj fields) = some b →
        List.lookup "included_environments" fields = none →
        b.includedEnvironments = none) := by
  refine ⟨?_, ?_, ?_, ?_⟩
  · intro st hst
    unfold logicalEnvironmentCreate at hst
    cases hput : createEnvironment putRes with
    | error e =>
        rw [hput] at hst
        simp at hst
    | ok u =>
        rw [hput, hget] at hst
        simp only [HandlerOutcome.success.injEq] at hst
        rw [← hst]
        rfl
  · intro st hst
    unfold logicalEnvironmentRead at hst
    rw [hget] at hst
    simp only [HandlerOutcome.success.injEq] at hst
    rw [← hst]
    rfl
  · intro st hst
    unfold logicalEnvironmentUpdate at hst
    cases hput : createEnvironment putRes with
    | error e =>
        rw [hput] at hst
        simp at hst
    | ok u =>
        rw [hput, hget] at hst
        simp only [HandlerOutcome.success.injEq] at hst
        rw [← hst]
        rfl
  · intro fields b hdec hlook
    simp only [decodeEnvironment] at hdec
    split at hdec
    · rename_i org name type description lastModifiedAt lastReportedAt
        includeScaling requireProvenance tags policies includedEnvironments
        horg hname htype hdesc hlm hlr his hrp htags hpol hinc
      have : decStringListField fields "included_environments" = some none := by
        unfold decStringListField getField
        rw [hlook]
      rw [this] at hinc
      simp only [Option.some.injEq] at hinc
      simp only [Option.some.injEq] at hdec
      rw [← hdec, ← hinc]
    · cases hdec

/-- C1 witness: the theorem applied to the concrete plan w1Data and a GET
response whose body omits included_environments; the written state keeps
the planned list. -/
theorem C1_witness :
    (logicalEnvironmentCreate w1Data okPut w1Get).2 = .success w1State
  ∧ w1State.includedEnvironments = ["env-a", "env-b"] :=
  ⟨rfl,
   (C1_included_environments_preserved w1Data okPut w1Get w1Env rfl
      (Or.inl rfl)).1 w1State rfl⟩


theorem createCustomAttestationType_response_error (r : HttpResponse)
    (hs : 400 ≤ r.statusCode) :
    createCustomAttestationType (.response r) = .error (.api (parseErrorResponse r)) := by
  show (if 400 ≤ r.statusCode then Except.error (GoError.api (parseErrorResponse r))
        else if r.statusCode != 201 then
          Except.error (GoError.str ("unexpected status code: " ++ toString r.statusCode))
        else Except.ok ()) = _
  rw [if_pos hs]

/-- C2: every Create handler (custom attestation type, physical
environment, logical environment) performs exactly one write call and, only
if it succeeds, one follow-up read: a failed write yields the
create-context diagnostic with the classified client error and no read call
is made; a successful write followed by a failed read yields the distinct
read-after-creation diagnostic; when both succeed the trace is exactly
write then read and the handler succeeds.  Non-2xx write responses are
classified into APIErrors carrying the status. -/
theorem C2_create_write_then_read (catData : CustomAttestationTypeResourceModel)
    (envData : EnvironmentResourceModel)
    (logData : LogicalEnvironmentResourceModel) (w r : DoResult) :
    ((∀ e, createCustomAttestationType w = .error e →
        customAttestationTypeCreate catData w r =
          ([.postCustomAttestationType (customAttestationTypeCreateRequest catData)],
           .failure "Error Creating Custom Attestation Type" e))
  ∧ (∀ e, createCustomAttestationType w = .ok () →
        getCustomAttestationType r = .error e →
        customAttestationTypeCreate catData w r =
          ([.postCustomAttestationType (customAttestationTypeCreateRequest catData),
            .getCustomAttestationTypeCall (catData.name.getD "")],
           .failure "Error Reading Custom Attestation Type After Creation" e))
  ∧ (∀ a, createCustomAttestationType w = .ok () →
        getCustomAttestationType r = .ok a →
        customAttestationTypeCreate catData w r =
          ([.postCustomAttestationType (customAttestationTypeCreateRequest catData),
            .getCustomAttestationTypeCall (catData.name.getD "")],
           .success (customAttestationTypeApplyRead catData a)))
  ∧ "Error Creating Custom Attestation Type" ≠
      "Error Reading Custom Attestation Type After Creation"
  ∧ (∀ resp, w = .response resp → 400 ≤ resp.statusCode →
        createCustomAttestationType w = .error (.api (parseErrorResponse resp))))
  ∧ ((∀ e, createEnvironment w = .error e →
        environmentCreate envData w r =
          ([.putEnvironment (environmentCreateRequest envData)],
           .failure "Error Creating Environment" e))
  ∧ (∀ e, createEnvironment w = .ok () → getEnvironment r = .error e →
        environmentCreate envData w r =
          ([.putEnvironment (environmentCreateRequest envData),
            .getEnv (envData.name.getD "")],
           .failure "Error Reading Environment After Creation" e))
  ∧ (∀ env, createEnvironment w = .ok () → getEnvironment r = .ok env →
        environmentCreate envData w r =
          ([.putEnvironment (environmentCreateRequest envData),
            .getEnv (envData.name.getD "")],
           .success (environmentApplyRead envData env)))
  ∧ "Error Creating Environment" ≠ "Error Reading Environment After Creation"
  ∧ (∀ resp, w = .response resp →
        (resp.statusCode < 200 ∨ 300 ≤ resp.statusCode) →
        createEnvironment w = .error (.api (parseErrorResponse resp))))
  ∧ ((∀ e, createEnvironment w = .error e →
        logicalEnvironmentCreate logData w r =
          ([.putEnvironment (logicalEnvironmentCreateRequest logData)],
           .failure "Error Creating Logical Environment" e))
  ∧ (∀ e, createEnvironment w = .ok () → getEnvironment r = .error e →
        logicalEnvironmentCreate logData w r =
          ([.putEnvironment (logicalEnvironmentCreateRequest logData),
            .getEnv (logData.name.getD "")],
           .failure "Error Reading Logical Environment After Creation" e))
  ∧ (∀ env, createEnvironment w = .ok () → getEnvironment r = .ok env →
        logicalEnvironmentCreate logData w r =
          ([.putEnvironment (logicalEnvironmentCreateRequest logData),
            .getEnv (logData.name.getD "")],
           .success (logicalEnvironmentApplyRead logData
                       logData.includedEnvironments env)))
  ∧ "Error Creating Logical Environment" ≠
      "Error Reading Logical Environment After Creation") := by
  refine ⟨⟨?_, ?_, ?_, by decide, ?_⟩, ⟨?_, ?_, ?_, by decide, ?_⟩,
          ⟨?_, ?_, ?_, by decide⟩⟩
  · intro e hw
    unfold customAttestationTypeCreate
    rw [hw]
  · intro e hw hr
    unfold customAttestationTypeCreate
    rw [hw, hr]
  · intro a hw hr
    unfold customAttestationTypeCreate
    rw [hw, hr]
  · intro resp hw hs
    rw [hw]
    exact createCustomAttestationType_response_error resp hs
  · intro e hw
    unfold environmentCreate
    rw [hw]
  · intro e hw hr
    unfold environmentCreate
    rw [hw, hr]
  · intro env hw hr
    unfold environmentCreate
    rw [hw, hr]
  · intro resp hw hs
    rw [hw]
    exact createEnvironment_response_error resp hs
  · intro e hw
    unfold logicalEnvironmentCreate
    rw [hw]
  · intro e hw hr
    unfold logicalEnvironmentCreate
    rw [hw, hr]
  · intro env hw hr
    unfold logicalEnvironmentCreate
    rw [hw, hr]

/-- C2 witness: the theorem applied to a failing write (HTTP 500, whose
body message is classified into the APIError) and, separately, to a
successful write whose follow-up read fails at the transport. -/
theorem C2_witness :
    customAttestationTypeCreate c2CatData (.response c2Resp500) c2ReadFail =
      ([.postCustomAttestationType (customAttestationTypeCreateRequest c2CatData)],
       .failure "Error Creating Custom Attestation Type" (.api c2E500))
  ∧ logicalEnvironmentCreate w1Data okPut c2ReadFail =
      ([.putEnvironment (logicalEnvironmentCreateRequest w1Data),
        .getEnv "app-prod"],
       .failure "Error Reading Logical Environment After Creation"
         (.str "failed to execute request: connection refused")) :=
  ⟨(C2_create_write_then_read c2CatData c2EnvData w1Data
      (.response c2Resp500) c2ReadFail).1.1 (.api c2E500) rfl,
   (C2_create_write_then_read c2CatData c2EnvData w1Data okPut c2ReadFail).2.2.2.1
     (.str "failed to execute request: connection refused") rfl rfl⟩


/-- C8: the environment data source maps the wire value of
last_reported_at through unchanged: a nil value (unmarshalled from JSON
null) becomes a null state value (not zero), and a numeric value is
preserved exactly; and the unmarshaller indeed maps a JSON null
last_reported_at member to nil and a numeric one to its exact rational
value. -/
theorem C8_last_reported_at_nullable (data : EnvironmentDataSourceModel)
    (getRes : DoResult) (env : Environment)
    (hget : getEnvironment getRes = .ok env) :
    (∀ st, (environmentDataSourceRead data getRes).2 = .success st →
        st.lastReportedAt = env.lastReportedAt)
  ∧ (∀ fields b, decodeEnvironment (.obj fields) = some b →
        List.lookup "last_reported_at" fields = some .null →
        b.lastReportedAt = none)
  ∧ (∀ fields b q, decodeEnvironment (.obj fields) = some b →
        List.lookup "last_reported_at" fields = some (.num q) →
        b.lastReportedAt = some q) := by
  refine ⟨?_, ?_, ?_⟩
  · intro st hst
    unfold environmentDataSourceRead at hst
    rw [hget] at hst
    simp only [HandlerOutcome.success.injEq] at hst
    rw [← hst]
    cases env.lastReportedAt <;> rfl
  · intro fields b hdec hlook
    simp only [decodeEnvironment] at hdec
    split at hdec
    · rename_i org name type description lastModifiedAt lastReportedAt
        includeScaling requireProvenance tags policies includedEnvironments
        horg hname htype hdesc hlm hlr his hrp htags hpol hinc
      have hv : decNullableNumField fields "last_reported_at" = some none := by
        unfold decNullableNumField getField
        rw [hlook]
      rw [hv] at hlr
      simp only [Option.some.injEq] at hlr hdec
      rw [← hdec, ← hlr]
    · cases hdec
  · intro fields b q hdec hlook
    simp only [decodeEnvironment] at hdec
    split at hdec
    · rename_i org name type description lastModifiedAt lastReportedAt
        includeScaling requireProvenance tags policies includedEnvironments
        horg hname htype hdesc hlm hlr his hrp htags hpol hinc
      have hv : decNullableNumField fields "last_reported_at" = some (some q) := by
        unfold decNullableNumField getField
        rw [hlook]
      rw [hv] at hlr
      simp only [Option.some.injEq] at hlr hdec
      rw [← hdec, ← hlr]
    · cases hdec

/-- C8 witness: the theorem applied to a GET body carrying
last_reported_at: null; the resulting state value is null and in
particular not zero. -/
theorem C8_witness :
    (environmentDataSourceRead c8Data c8Get).2 = .success c8State
  ∧ c8State.lastReportedAt = none
  ∧ c8State.lastReportedAt ≠ some 0 :=
  ⟨rfl,
   (C8_last_reported_at_nullable c8Data c8Get c8Env rfl).1 c8State rfl,
   by decide⟩

/-- C10: every environment handler that maps a GET response into state —
Create, Read and Update of the physical and logical environment resources,
and the environment data source Read — stores an empty remote description
as a null value and a non-empty one verbatim; and since absent, null and
empty wire descriptions all unmarshal to the empty string, they are
indistinguishable in the resulting state. -/
theorem C10_empty_description_is_null (envData : EnvironmentResourceModel)
    (logData : LogicalEnvironmentResourceModel)
    (dsData : EnvironmentDataSourceModel) (putRes getRes : DoResult)
    (env : Environment) (hget : getEnvironment getRes = .ok env) :
    (∀ st, (environmentCreate envData putRes getRes).2 = .success st →
        st.description = (if env.description == "" then none else some env.description))
  ∧ (∀ st, (environmentRead envData getRes).2 = .success st →
        st.description = (if env.description == "" then none else some env.description))
  ∧ (∀ st, (environmentUpdate envData putRes getRes).2 = .success st →
        st.description = (if env.description == "" then none else some env.description))
  ∧ (∀ st, (logicalEnvironmentCreate logData putRes getRes).2 = .success st →
        st.description = (if env.description == "" then none else some env.description))
  ∧ (∀ st, (logicalEnvironmentRead logData getRes).2 = .success st →
        st.description = (if env.description == "" then none else some env.description))
  ∧ (∀ st, (logicalEnvironmentUpdate logData putRes getRes).2 = .success st →
        st.description = (if env.description == "" then none else some env.description))
  ∧ (∀ st, (environmentDataSourceRead dsData getRes).2 = .success st →
        st.description = (if env.description == "" then none else some env.description))
  ∧ (∀ fields b, decodeEnvironment (.obj fields) = some b →
        (List.lookup "description" fields = none ∨
         List.lookup "description" fields = some .null ∨
         List.lookup "description" fields = some (.str "")) →
        b.description = "") := by
  refine ⟨?_, ?_, ?_, ?_, ?_, ?_, ?_, ?_⟩
  · intro st hst
    unfold environmentCreate at hst
    cases hput : createEnvironment putRes with
    | error e => rw [hput] at hst; simp at hst
    | ok u =>
        rw [hput, hget] at hst
        simp only [HandlerOutcome.success.injEq] at hst
        rw [← hst]
        rfl
  · intro st hst
    unfold environmentRead at hst
    rw [hget] at hst
    simp only [HandlerOutcome.success.injEq] at hst
    rw [← hst]
    rfl
  · intro st hst
    unfold environmentUpdate at hst
    cases hput : createEnvironment putRes with
    | error e => rw [hput] at hst; simp at hst
    | ok u =>
        rw [hput, hget] at hst
        simp only [HandlerOutcome.success.injEq] at hst
        rw [← hst]
        rfl
  · intro st hst
    unfold logicalEnvironmentCreate at hst
    cases hput : createEnvironment putRes with
    | error e => rw [hput] at hst; simp at hst
    | ok u =>
        rw [hput, hget] at hst
        simp only [HandlerOutcome.success.injEq] at hst
        rw [← hst]
        rfl
  · intro st hst
    unfold logicalEnvironmentRead at hst
    rw [hget] at hst
    simp only [HandlerOutcome.success.injEq] at hst
    rw [← hst]
    rfl
  · intro st hst
    unfold logicalEnvironmentUpdate at hst
    cases hput : createEnvironment putRes with
    | error e => rw [hput] at hst; simp at hst
    | ok u =>
        rw [hput, hget] at hst
        simp only [HandlerOutcome.success.injEq] at hst
        rw [← hst]
        rfl
  · intro st hst
    unfold environmentDataSourceRead at hst
    rw [hget] at hst
    simp only [HandlerOutcome.success.injEq] at hst
    rw [← hst]
  · intro fields b hdec hlook
    simp only [decodeEnvironment] at hdec
    split at hdec
    · rename_i org name type description lastModifiedAt lastReportedAt
        includeScaling requireProvenance tags policies includedEnvironments
        horg hname htype hdesc hlm hlr his hrp htags hpol hinc
      have hv : decStringField fields "description" = some "" := by
        unfold decStringField getField
        rcases hlook with h | h | h <;> rw [h]
      rw [hv] at hdesc
      simp only [Option.some.injEq] at hdesc hdec
      rw [← hdec, ← hdesc]
    · cases hdec

/-- C10 witness: the theorem applied to a GET response whose description
is the empty string; the created state's description is null. -/
theorem C10_witness :
    (environmentCreate c2EnvData okPut w1Get).2 = .success c10State
  ∧ c10State.description = none :=
  ⟨rfl,
   (C10_empty_description_is_null c2EnvData w1Data c8Data okPut w1Get w1Env
      rfl).1 c10State rfl⟩


/-- C9 counterexample: a 500 response with a non-JSON body of exactly 500
bytes.  The claim says the message falls back to the raw body text whenever
the body is not valid JSON; the code only uses the raw body when its length
is strictly between 0 and 500 bytes, and here yields the standard status
phrase instead. -/
theorem C9_counterexample :
    (parseErrorResponse c9Resp).message = "Internal Server Error"
  ∧ (parseErrorResponse c9Resp).message ≠ c9LongBody
  ∧ unmarshalApiErrorResponse c9LongBody = none
  ∧ c9LongBody.utf8ByteSize = 500 :=
  ⟨rfl, by decide, rfl, rfl⟩

/-- C9 amended: the typed error always carries the response status code,
and its message is chosen thus: when the body is unreadable, the status
phrase; when the body unmarshals into the error struct, its message field
if non-empty, else its error field if non-empty, else the status phrase;
when the body does not unmarshal, the raw body text if its byte length is
strictly between 0 and 500, else the status phrase. -/
theorem C9_error_message_precedence (resp : HttpResponse) :
    (parseErrorResponse resp).statusCode = resp.statusCode
  ∧ (resp.body = none →
      (parseErrorResponse resp).message = statusText resp.statusCode)
  ∧ (∀ body er, resp.body = some body →
      unmarshalApiErrorResponse body = some er → er.message ≠ "" →
      (parseErrorResponse resp).message = er.message)
  ∧ (∀ body er, resp.body = some body →
      unmarshalApiErrorResponse body = some er → er.message = "" →
      er.error ≠ "" → (parseErrorResponse resp).message = er.error)
  ∧ (∀ body er, resp.body = some body →
      unmarshalApiErrorResponse body = some er → er.message = "" →
      er.error = "" →
      (parseErrorResponse resp).message = statusText resp.statusCode)
  ∧ (∀ body, resp.body = some body → unmarshalApiErrorResponse body = none →
      0 < body.utf8ByteSize → body.utf8ByteSize < 500 →
      (parseErrorResponse resp).message = body)
  ∧ (∀ body, resp.body = some body → unmarshalApiErrorResponse body = none →
      (body.utf8ByteSize = 0 ∨ 500 ≤ body.utf8ByteSize) →
      (parseErrorResponse resp).message = statusText resp.statusCode) := by
  refine ⟨parseErrorResponse_statusCode resp, ?_, ?_, ?_, ?_, ?_, ?_⟩
  · intro hb
    unfold parseErrorResponse
    rw [hb]
  · intro body er hb hu hm
    unfold parseErrorResponse
    rw [hb]
    dsimp only
    rw [hu]
    dsimp only
    rw [if_pos (bne_iff_ne.mpr hm)]
  · intro body er hb hu hm he
    unfold parseErrorResponse
    rw [hb]
    dsimp only
    rw [hu]
    dsimp only
    have hm2 : (er.message != "") = false := by simp [hm]
    rw [hm2]
    rw [if_pos (bne_iff_ne.mpr he)]
    rfl
  · intro body er hb hu hm he
    unfold parseErrorResponse
    rw [hb]
    dsimp only
    rw [hu]
    dsimp only
    have hm2 : (er.message != "") = false := by simp [hm]
    have he2 : (er.error != "") = false := by simp [he]
    rw [hm2, he2]
    rfl
  · intro body hb hu h1 h2
    unfold parseErrorResponse
    rw [hb]
    dsimp only
    rw [hu]
    dsimp only
    rw [if_pos ⟨h1, h2⟩]
  · intro body hb hu hlen
    unfold parseErrorResponse
    rw [hb]
    dsimp only
    rw [hu]
    dsimp only
    have hneg : ¬(0 < body.utf8ByteSize ∧ body.utf8ByteSize < 500) := by
      rcases hlen with h | h <;> omega
    rw [if_neg hneg]

/-- C9 amended witness: the amended theorem applied to the 500-byte
non-JSON body, and to a response whose JSON body has a message field. -/
theorem C9_amended_witness :
    (parseErrorResponse c9Resp).message = statusText 500
  ∧ (parseErrorResponse c2Resp500).message = "boom" :=
  ⟨(C9_error_message_precedence c9Resp).2.2.2.2.2.2 c9LongBody rfl rfl
     (Or.inr (by decide)),
   (C9_error_message_precedence c2Resp500).2.2.1 "\x7b\"message\":\"boom\"\x7d"
     { message := "boom", code := "", error := "" } rfl rfl (by decide)⟩


/-- C3: the semantic schema comparison used for the schema attribute: if
either string fails to parse as JSON, the comparison degrades to exact
string equality; if both parse, it coincides with structural equality of
the parsed values — which is reflexive on well-formed values, holds across
any permutation of an object's (well-formed) field list so key order is
insignificant, compares arrays element by element in order (so [1,2] and
[2,1] differ), and compares numbers by exact numeric value, so different
literal formats of the same number compare equal. -/
theorem C3_semantic_schema_comparator (s1 s2 : String) :
    ((Json.parse s1 = none ∨ Json.parse s2 = none) →
        jsonSemanticEqual s1 s2 = (s1 == s2))
  ∧ (∀ j1 j2, Json.parse s1 = some j1 → Json.parse s2 = some j2 →
        jsonSemanticEqual s1 s2 = structEq j1 j2)
  ∧ (∀ j, wfJson j = true → structEq j j = true)
  ∧ (∀ fs gs, wfJsonFields fs = true → fs.Perm gs →
        structEq (.obj fs) (.obj gs) = true)
  ∧ (∀ x y xs ys, structEq (.arr (x :: xs)) (.arr (y :: ys)) =
        (structEq x y && structEqList xs ys))
  ∧ (∀ q1 q2, structEq (.num q1) (.num q2) = (q1 == q2))
  ∧ structEq (.arr [.num 1, .num 2]) (.arr [.num 2, .num 1]) = false
  ∧ jsonSemanticEqual "1.50e1" "15" = true := by
  refine ⟨?_, ?_, structEq_refl, structEq_obj_perm, ?_, ?_, by decide, by decide⟩
  · intro h
    unfold jsonSemanticEqual
    rcases h with h | h
    · cases hp2 : Json.parse s2 with
      | none => rw [h]
      | some j2 => rw [h]
    · cases hp1 : Json.parse s1 with
      | none => rw [h]
      | some j1 => rw [h]
  · intro j1 j2 h1 h2
    unfold jsonSemanticEqual
    rw [h1, h2]
  · intro x y xs ys
    rfl
  · intro q1 q2
    rfl

/-- C3 witness: the theorem applied to the spec's own examples — permuted
object keys compare equal through the parse-then-structEq path (with the
permutation conjunct), array order matters, and non-JSON text degrades to
exact string comparison. -/
theorem C3_witness :
    jsonSemanticEqual c3Doc1 c3Doc2 = true
  ∧ jsonSemanticEqual "[1,2]" "[2,1]" = false
  ∧ jsonSemanticEqual "not json" "not json" = true
  ∧ jsonSemanticEqual "not json" "not  json" = false := by
  refine ⟨?_, ?_, ?_, ?_⟩
  · exact ((C3_semantic_schema_comparator c3Doc1 c3Doc2).2.1 c3Val1 c3Val2
      rfl rfl).trans
      ((C3_semantic_schema_comparator c3Doc1 c3Doc2).2.2.2.1
        [("type", .str "object"), ("properties", .obj [("a", .num 1)])]
        [("properties", .obj [("a", .num 1)]), ("type", .str "object")]
        (by decide) (List.Perm.swap _ _ _))
  · exact ((C3_semantic_schema_comparator "[1,2]" "[2,1]").2.1
      (.arr [.num 1, .num 2]) (.arr [.num 2, .num 1])
      rfl rfl).trans (by decide)
  · exact ((C3_semantic_schema_comparator "not json" "not json").1
      (Or.inl rfl)).trans (by decide)
  · exact ((C3_semantic_schema_comparator "not json" "not  json").1
      (Or.inl rfl)).trans (by decide)

end Kosli
